import Mathlib

/-!
Verification of `src/exercise.ts` (a 0x token-swap workflow).

The single exported function `performSwapAsync` is embedded as a pure Lean
function over an explicit environment `Env` that supplies the response of
every external call (blockchain reads, approval transaction, HTTP quote
request, transaction submission).  The run of the function is its list of
issued calls (a trace of `Event`s) together with its outcome
(`Except Err Unit`).  Numeric amounts are modelled as rationals: `BigNumber`
in the source is arbitrary-precision decimal arithmetic, exact on every
operation the code performs (division by a power of ten, rounding to two
decimal places, multiplication by a power of ten).
-/


/-- Equality of `Except` values is decidable when it is on both sides. -/
instance {e a : Type} [DecidableEq e] [DecidableEq a] :
    DecidableEq (Except e a) := fun x y =>
  match x, y with
  | .ok v, .ok w => decidable_of_iff (v = w) (by simp)
  | .error v, .error w => decidable_of_iff (v = w) (by simp)
  | .ok _, .error _ => isFalse (by simp)
  | .error _, .ok _ => isFalse (by simp)

/-- An ERC20 token wrapper (`ERC20TokenContract` in the source): the code
only ever uses its `address`. -/
structure ERC20TokenContract where
  address : String
deriving DecidableEq

/-- An error produced by an external service (a rejected promise). -/
structure ExtErr where
  code : Nat
deriving DecidableEq

/-- An error outcome of `performSwapAsync`. -/
inductive Err where
  /-- the error of a `throw new Error msg` written in the body of
  `performSwapAsync`. -/
  | thrown (msg : String)
  /-- the `throw` inside the library helper `Web3Wrapper.toBaseUnitAmount`
  when the base-unit amount is not an integer. -/
  | libraryThrown (msg : String)
  /-- a rejected promise from an awaited external call, propagated as-is. -/
  | rejected (e : ExtErr)
deriving DecidableEq

/-- The transaction fields that `performSwapAsync` reads from the
deserialized HTTP quote response (`GetSwapQuoteResponse` / `TxData`). -/
structure GetSwapQuoteResponse where
  «to» : String
  data : String
  gas : Nat
  gasPrice : Nat
  value : Nat
  orders : List String
deriving DecidableEq

/-- The subset of `TxData` fields the code copies out of the quote. -/
structure TxData where
  «to» : String
  data : String
  gas : Nat
  gasPrice : Nat
  value : Nat
deriving DecidableEq

/-- The transaction object passed to `client.sendTransactionAsync`. -/
structure SubmittedTx where
  «from» : String
  «to» : String
  data : String
  gas : Nat
  gasPrice : Nat
  value : Nat
deriving DecidableEq

/-- The query parameters of the 0x swap-quote request
(`ZeroExSwapAPIParams` in the source). -/
structure ZeroExSwapAPIParams where
  buyToken : String
  sellToken : String
  sellAmount : String
  takerAddress : String
deriving DecidableEq

/-- A mined-transaction receipt (only the hash is ever used). -/
structure TxReceipt where
  transactionHash : String
deriving DecidableEq

/-- The deployed 0x contract addresses
(`getContractAddressesForChainOrThrow(ChainId.Kovan)` in the source; the
value is a constant of the `@0x/contract-addresses` library, of which the
code uses only `erc20Proxy`). -/
structure ContractAddresses where
  erc20Proxy : String
deriving DecidableEq

/-- The Kovan deployment addresses: an abstract constant standing for the
library value. -/
def zeroExDeployedAddresses : ContractAddresses :=
  { erc20Proxy := "0xKovanERC20Proxy" }

/-- One observable action of a run: every awaited external call, plus the
user-facing `alert`. -/
inductive Event where
  | decimalsRead (token : String)
  | balanceRead (token owner : String)
  | allowanceRead (token owner spender : String)
  | alert (msg : String)
  | approveTx (token spender : String) (amount : ℚ) (sender : String)
  | httpGet (url : String) (params : ZeroExSwapAPIParams)
  | sendTx (tx : SubmittedTx)
  | awaitTx (txHash : String)
deriving DecidableEq

/-- The environment: the response every external service gives to each
possible call.  A run of `performSwapAsync` is deterministic once the
environment is fixed. -/
structure Env where
  decimals : String → Except ExtErr Nat
  balanceOf : String → String → Except ExtErr Nat
  allowance : String → String → String → Except ExtErr Nat
  approve : String → String → ℚ → String → Except ExtErr TxReceipt
  quote : String → ZeroExSwapAPIParams → Except ExtErr GetSwapQuoteResponse
  sendTransaction : SubmittedTx → Except ExtErr String
  awaitTransaction : String → Except ExtErr TxReceipt

/-- The library helper `Web3Wrapper.toUnitAmount`: divide a base-unit
amount by `10 ^ decimals`
(exact in `BigNumber` decimal arithmetic, hence exact in `ℚ`). -/
def toUnitAmount (baseAmount : Nat) (decimals : Nat) : ℚ :=
  (baseAmount : ℚ) / 10 ^ decimals

/-- The rounding `BigNumber.decimalPlaces(2)` with the default
`ROUND_HALF_UP` mode,
on the non-negative amounts the code applies it to: round to the nearest
hundredth, halves away from zero. -/
def decimalPlaces2 (q : ℚ) : ℚ :=
  (⌊q * 100 + 1 / 2⌋ : ℚ) / 100

/-- The library helper `Web3Wrapper.toBaseUnitAmount`: multiply by
`10 ^ decimals`; the library
throws if the result has a fractional part. -/
def toBaseUnitAmount (unitAmount : ℚ) (decimals : Nat) : Except Err ℚ :=
  let baseUnitAmount := unitAmount * 10 ^ decimals
  if baseUnitAmount.den = 1 then .ok baseUnitAmount
  else .error (.libraryThrown "Invalid unit amount")

/-- The decimal string `BigNumber.toString()` of the (integer) base-unit
amount: its decimal
digits. -/
def bigNumberToString (q : ℚ) : String :=
  toString q.num

/-- The 0x swap-quote endpoint used in the source. -/
def quoteUrl : String := "https://kovan.api.0x.org/swap/v0/quote"

/-- The source function `convertValueFromHumanToEthereum`: read the token
decimals, then convert
the human-readable amount to base units.  Returns the issued calls and the
result. -/
def convertValueFromHumanToEthereum (tokenWrapper : ERC20TokenContract)
    (unitAmount : ℚ) (env : Env) : List Event × Except Err ℚ :=
  ([Event.decimalsRead tokenWrapper.address],
    match env.decimals tokenWrapper.address with
    | .error e => .error (.rejected e)
    | .ok decimals => toBaseUnitAmount unitAmount decimals)

/-- Steps #3 and #4 of `performSwapAsync` (the quote request and the
transaction submission), taking the trace accumulated so far. -/
def performSwapSteps34 (buyTokenWrapper sellTokenWrapper : ERC20TokenContract)
    (amountToSellUnitAmount : ℚ) (fromAddress : String) (env : Env)
    (t : List Event) : List Event × Except Err Unit :=
  let conv := convertValueFromHumanToEthereum sellTokenWrapper
    amountToSellUnitAmount env
  let t := t ++ conv.1
  match conv.2 with
  | .error err => (t, .error err)
  | .ok sellAmountBase =>
    let sellAmountInBaseUnits := bigNumberToString sellAmountBase
    let params : ZeroExSwapAPIParams :=
      { buyToken := buyTokenWrapper.address
        sellToken := sellTokenWrapper.address
        sellAmount := sellAmountInBaseUnits
        takerAddress := fromAddress }
    let t := t ++ [Event.httpGet quoteUrl params]
    match env.quote quoteUrl params with
    | .error e => (t, .error (.rejected e))
    | .ok respData =>
      let txData : TxData :=
        { «to» := respData.«to», data := respData.data, gas := respData.gas
          gasPrice := respData.gasPrice, value := respData.value }
      let submitted : SubmittedTx :=
        { «from» := fromAddress, «to» := txData.«to», data := txData.data
          gas := txData.gas, gasPrice := txData.gasPrice
          value := txData.value }
      let t := t ++ [Event.sendTx submitted]
      match env.sendTransaction submitted with
      | .error e => (t, .error (.rejected e))
      | .ok tx =>
        let t := t ++ [Event.awaitTx tx]
        match env.awaitTransaction tx with
        | .error e => (t, .error (.rejected e))
        | .ok _receipt => (t, .ok ())

/-- The embedded `performSwapAsync`: issues the calls of the source in
source order against `env`, returning the trace of issued calls and the
outcome. -/
def performSwapAsync (buyTokenWrapper sellTokenWrapper : ERC20TokenContract)
    (amountToSellUnitAmount : ℚ) (fromAddress : String) (env : Env) :
    List Event × Except Err Unit :=
  let sellAddr := sellTokenWrapper.address
  -- Step #1: does the user have enough balance?
  let t := [Event.decimalsRead sellAddr]
  match env.decimals sellAddr with
  | .error e => (t, .error (.rejected e))
  | .ok decimals =>
    let t := t ++ [Event.balanceRead sellAddr fromAddress]
    match env.balanceOf sellAddr fromAddress with
    | .error e => (t, .error (.rejected e))
    | .ok balRaw =>
      let tokenBalance := decimalPlaces2 (toUnitAmount balRaw decimals)
      if tokenBalance < amountToSellUnitAmount then
        (t ++ [Event.alert "Not Enough Balance"],
          .error (.thrown "Not Enough Balance"))
      else
        -- Step #2: does the 0x ERC20 proxy have a sufficient allowance?
        let t := t ++ [Event.allowanceRead sellAddr fromAddress
          zeroExDeployedAddresses.erc20Proxy]
        match env.allowance sellAddr fromAddress
            zeroExDeployedAddresses.erc20Proxy with
        | .error e => (t, .error (.rejected e))
        | .ok allowanceRaw =>
          let allowance := decimalPlaces2 (toUnitAmount allowanceRaw decimals)
          if allowance < amountToSellUnitAmount then
            let t := t ++ [Event.decimalsRead sellAddr]
            match env.decimals sellAddr with
            | .error e => (t, .error (.rejected e))
            | .ok d2 =>
              match toBaseUnitAmount amountToSellUnitAmount d2 with
              | .error err => (t, .error err)
              | .ok approveAmount =>
                let t := t ++ [Event.approveTx sellAddr
                  zeroExDeployedAddresses.erc20Proxy approveAmount
                  fromAddress]
                match env.approve sellAddr
                    zeroExDeployedAddresses.erc20Proxy approveAmount
                    fromAddress with
                | .error e => (t, .error (.rejected e))
                | .ok _tx =>
                  performSwapSteps34 buyTokenWrapper sellTokenWrapper
                    amountToSellUnitAmount fromAddress env t
          else
            performSwapSteps34 buyTokenWrapper sellTokenWrapper
              amountToSellUnitAmount fromAddress env t

/-! ### Classification of trace events (spec vocabulary) -/

/-- Whether an event is a call to an external service (the user-facing
`alert` is not). -/
def isOutboundCall : Event → Bool
  | .alert _ => false
  | _ => true

/-- The external calls of a trace, in order. -/
def outboundCalls (t : List Event) : List Event :=
  t.filter isOutboundCall

/-- The step of `performSwapAsync` that the spec assigns each kind of
external call to: blockchain reads are step 1, the approval transaction is
step 2, the HTTP quote request is step 3, and the submission of the
generated transaction (with its receipt wait) is step 4.  Follows the
spec's wording, for comparison with the embedded code. -/
def specStep : Event → Nat
  | .decimalsRead _ => 1
  | .balanceRead _ _ => 1
  | .allowanceRead _ _ _ => 1
  | .alert _ => 0
  | .approveTx _ _ _ _ => 2
  | .httpGet _ _ => 3
  | .sendTx _ => 4
  | .awaitTx _ => 4

/-- A list of naturals is nondecreasing. -/
def nondecreasing : List Nat → Bool
  | [] => true
  | [_] => true
  | a :: b :: rest => decide (a ≤ b) && nondecreasing (b :: rest)

def isApproveTx : Event → Bool
  | .approveTx _ _ _ _ => true
  | _ => false

def isHttpGet : Event → Bool
  | .httpGet _ _ => true
  | _ => false

def isSendTx : Event → Bool
  | .sendTx _ => true
  | _ => false

/-! ### Concrete environments used for witnesses and counterexamples -/

/-- A token with 3 decimals, everything succeeding, balance 5.000 tokens,
allowance 0 (so an approval is required). -/
def envApprove : Env :=
  { decimals := fun _ => .ok 3
    balanceOf := fun _ _ => .ok 5000
    allowance := fun _ _ _ => .ok 0
    approve := fun _ _ _ _ => .ok { transactionHash := "0xapproved" }
    quote := fun _ _ => .ok
      { «to» := "0xExchange", data := "0xcalldata", gas := 210000
        gasPrice := 1000, value := 0, orders := ["order1"] }
    sendTransaction := fun _ => .ok "0xtxhash"
    awaitTransaction := fun h => .ok { transactionHash := h } }

def buyTok : ERC20TokenContract := { address := "0xBUY" }

def sellTok : ERC20TokenContract := { address := "0xSELL" }

/-- Like `envApprove` but the balance is only 0.100 tokens (100 base units
at 3 decimals): the balance check fails. -/
def envPoor : Env :=
  { envApprove with balanceOf := fun _ _ => .ok 100 }

/-- Balance 4.999 tokens (4999 base units at 3 decimals) and an ample
allowance: the true balance is below a sell amount of 5, yet the rounded
balance is not. -/
def envBal4999 : Env :=
  { envApprove with balanceOf := fun _ _ => .ok 4999
                    allowance := fun _ _ _ => .ok 1000000 }

/-- Balance 5.000 tokens and an allowance of 4.999 tokens: the true
allowance is below a sell amount of 5, yet the rounded allowance is not. -/
def envAllow4999 : Env :=
  { envApprove with allowance := fun _ _ _ => .ok 4999 }

/-- Like `envApprove` but the quote endpoint rejects with error code 42. -/
def envQuoteDown : Env :=
  { envApprove with quote := fun _ _ => .error { code := 42 } }

/-- Pointwise the same responses as `envApprove`, written differently. -/
def envApproveTwin : Env :=
  { decimals := fun _ => .ok (2 + 1)
    balanceOf := fun _ _ => .ok (4000 + 1000)
    allowance := fun _ _ _ => .ok (0 * 7)
    approve := fun _ _ _ _ => .ok { transactionHash := "0xapproved" }
    quote := fun _ _ => .ok
      { «to» := "0xExchange", data := "0xcalldata", gas := 210000
        gasPrice := 1000, value := 0, orders := ["order1"] }
    sendTransaction := fun _ => .ok "0xtxhash"
    awaitTransaction := fun h => .ok { transactionHash := h } }

/-! ### Abbreviations for the runs' building blocks -/

/-- The three initial blockchain reads of a run that passes the balance
check: decimals, balance, allowance. -/
def baseReads (sell fa : String) : List Event :=
  [Event.decimalsRead sell, Event.balanceRead sell fa,
   Event.allowanceRead sell fa zeroExDeployedAddresses.erc20Proxy]

/-- The query parameters the code builds for the quote request. -/
def swapParams (buy sell : ERC20TokenContract) (amt : ℚ) (d : Nat)
    (fa : String) : ZeroExSwapAPIParams :=
  { buyToken := buy.address
    sellToken := sell.address
    sellAmount := bigNumberToString (amt * 10 ^ d)
    takerAddress := fa }

/-- The transaction the code submits, built from the quote response `q` and
the `fromAddress`. -/
def submittedOf (fa : String) (q : GetSwapQuoteResponse) : SubmittedTx :=
  { «from» := fa, «to» := q.«to», data := q.data, gas := q.gas
    gasPrice := q.gasPrice, value := q.value }

/-- The error, if any, with which the environment answers a given call. -/
def envRejects (env : Env) : Event → Option ExtErr
  | .decimalsRead tok =>
    match env.decimals tok with | .error e => some e | .ok _ => none
  | .balanceRead tok own =>
    match env.balanceOf tok own with | .error e => some e | .ok _ => none
  | .allowanceRead tok own sp =>
    match env.allowance tok own sp with | .error e => some e | .ok _ => none
  | .alert _ => none
  | .approveTx tok sp a snd =>
    match env.approve tok sp a snd with | .error e => some e | .ok _ => none
  | .httpGet url p =>
    match env.quote url p with | .error e => some e | .ok _ => none
  | .sendTx tx =>
    match env.sendTransaction tx with | .error e => some e | .ok _ => none
  | .awaitTx h =>
    match env.awaitTransaction h with | .error e => some e | .ok _ => none


/-! ### Case analysis of the runs -/

/-- Exhaustive enumeration of the possible runs of steps #3 and #4. -/
theorem performSwapSteps34_cases (buy sell : ERC20TokenContract) (amt : ℚ)
    (fa : String) (env : Env) (t : List Event) :
    (∃ e, env.decimals sell.address = .error e ∧
      performSwapSteps34 buy sell amt fa env t =
        (t ++ [.decimalsRead sell.address], .error (.rejected e))) ∨
    (∃ d, env.decimals sell.address = .ok d ∧ (amt * 10 ^ d).den ≠ 1 ∧
      performSwapSteps34 buy sell amt fa env t =
        (t ++ [.decimalsRead sell.address],
         .error (.libraryThrown "Invalid unit amount"))) ∨
    (∃ d e, env.decimals sell.address = .ok d ∧ (amt * 10 ^ d).den = 1 ∧
      env.quote quoteUrl (swapParams buy sell amt d fa) = .error e ∧
      performSwapSteps34 buy sell amt fa env t =
        (t ++ [.decimalsRead sell.address,
               .httpGet quoteUrl (swapParams buy sell amt d fa)],
         .error (.rejected e))) ∨
    (∃ d q e, env.decimals sell.address = .ok d ∧ (amt * 10 ^ d).den = 1 ∧
      env.quote quoteUrl (swapParams buy sell amt d fa) = .ok q ∧
      env.sendTransaction (submittedOf fa q) = .error e ∧
      performSwapSteps34 buy sell amt fa env t =
        (t ++ [.decimalsRead sell.address,
               .httpGet quoteUrl (swapParams buy sell amt d fa),
               .sendTx (submittedOf fa q)],
         .error (.rejected e))) ∨
    (∃ d q txh e, env.decimals sell.address = .ok d ∧
      (amt * 10 ^ d).den = 1 ∧
      env.quote quoteUrl (swapParams buy sell amt d fa) = .ok q ∧
      env.sendTransaction (submittedOf fa q) = .ok txh ∧
      env.awaitTransaction txh = .error e ∧
      performSwapSteps34 buy sell amt fa env t =
        (t ++ [.decimalsRead sell.address,
               .httpGet quoteUrl (swapParams buy sell amt d fa),
               .sendTx (submittedOf fa q), .awaitTx txh],
         .error (.rejected e))) ∨
    (∃ d q txh rc, env.decimals sell.address = .ok d ∧
      (amt * 10 ^ d).den = 1 ∧
      env.quote quoteUrl (swapParams buy sell amt d fa) = .ok q ∧
      env.sendTransaction (submittedOf fa q) = .ok txh ∧
      env.awaitTransaction txh = .ok rc ∧
      performSwapSteps34 buy sell amt fa env t =
        (t ++ [.decimalsRead sell.address,
               .httpGet quoteUrl (swapParams buy sell amt d fa),
               .sendTx (submittedOf fa q), .awaitTx txh],
         .ok ())) := by
  rcases hd : env.decimals sell.address with e | d
  · exact Or.inl ⟨e, rfl, by
      simp [performSwapSteps34, convertValueFromHumanToEthereum, hd]⟩
  by_cases hden : (amt * 10 ^ d).den = 1
  · rcases hq : env.quote quoteUrl (swapParams buy sell amt d fa) with e | q
    · refine Or.inr (Or.inr (Or.inl ⟨d, e, rfl, hden, hq, ?_⟩))
      simp only [performSwapSteps34, convertValueFromHumanToEthereum,
        toBaseUnitAmount, hd, if_pos hden]
      simp only [swapParams] at hq
      simp [hq, swapParams]
    rcases hs : env.sendTransaction (submittedOf fa q) with e | txh
    · refine Or.inr (Or.inr (Or.inr (Or.inl ⟨d, q, e, rfl, hden, hq, hs, ?_⟩)))
      simp only [performSwapSteps34, convertValueFromHumanToEthereum,
        toBaseUnitAmount, hd, if_pos hden]
      simp only [swapParams] at hq
      simp only [submittedOf] at hs
      simp [hq, hs, swapParams, submittedOf]
    rcases hw : env.awaitTransaction txh with e | rc
    · refine Or.inr (Or.inr (Or.inr (Or.inr (Or.inl
        ⟨d, q, txh, e, rfl, hden, hq, hs, hw, ?_⟩))))
      simp only [performSwapSteps34, convertValueFromHumanToEthereum,
        toBaseUnitAmount, hd, if_pos hden]
      simp only [swapParams] at hq
      simp only [submittedOf] at hs
      simp [hq, hs, hw, swapParams, submittedOf]
    · refine Or.inr (Or.inr (Or.inr (Or.inr (Or.inr
        ⟨d, q, txh, rc, rfl, hden, hq, hs, hw, ?_⟩))))
      simp only [performSwapSteps34, convertValueFromHumanToEthereum,
        toBaseUnitAmount, hd, if_pos hden]
      simp only [swapParams] at hq
      simp only [submittedOf] at hs
      simp [hq, hs, hw, swapParams, submittedOf]
  · exact Or.inr (Or.inl ⟨d, rfl, hden, by
      simp [performSwapSteps34, convertValueFromHumanToEthereum,
        toBaseUnitAmount, hd, hden]⟩)

/-- Exhaustive enumeration of the possible runs of `performSwapAsync`:
every run either stops at a rejected call, stops at the balance check, stops
at the non-integer base-amount check, or reaches steps #3 and #4 with the
accumulated trace. -/
theorem performSwapAsync_cases (buy sell : ERC20TokenContract) (amt : ℚ)
    (fa : String) (env : Env) :
    (∃ e, env.decimals sell.address = .error e ∧
      performSwapAsync buy sell amt fa env =
        ([.decimalsRead sell.address], .error (.rejected e))) ∨
    (∃ d e, env.decimals sell.address = .ok d ∧
      env.balanceOf sell.address fa = .error e ∧
      performSwapAsync buy sell amt fa env =
        ([.decimalsRead sell.address, .balanceRead sell.address fa],
         .error (.rejected e))) ∨
    (∃ d b, env.decimals sell.address = .ok d ∧
      env.balanceOf sell.address fa = .ok b ∧
      decimalPlaces2 (toUnitAmount b d) < amt ∧
      performSwapAsync buy sell amt fa env =
        ([.decimalsRead sell.address, .balanceRead sell.address fa,
          .alert "Not Enough Balance"],
         .error (.thrown "Not Enough Balance"))) ∨
    (∃ d b e, env.decimals sell.address = .ok d ∧
      env.balanceOf sell.address fa = .ok b ∧
      ¬ decimalPlaces2 (toUnitAmount b d) < amt ∧
      env.allowance sell.address fa zeroExDeployedAddresses.erc20Proxy =
        .error e ∧
      performSwapAsync buy sell amt fa env =
        (baseReads sell.address fa, .error (.rejected e))) ∨
    (∃ d b al, env.decimals sell.address = .ok d ∧
      env.balanceOf sell.address fa = .ok b ∧
      ¬ decimalPlaces2 (toUnitAmount b d) < amt ∧
      env.allowance sell.address fa zeroExDeployedAddresses.erc20Proxy =
        .ok al ∧
      decimalPlaces2 (toUnitAmount al d) < amt ∧ (amt * 10 ^ d).den ≠ 1 ∧
      performSwapAsync buy sell amt fa env =
        (baseReads sell.address fa ++ [.decimalsRead sell.address],
         .error (.libraryThrown "Invalid unit amount"))) ∨
    (∃ d b al e, env.decimals sell.address = .ok d ∧
      env.balanceOf sell.address fa = .ok b ∧
      ¬ decimalPlaces2 (toUnitAmount b d) < amt ∧
      env.allowance sell.address fa zeroExDeployedAddresses.erc20Proxy =
        .ok al ∧
      decimalPlaces2 (toUnitAmount al d) < amt ∧ (amt * 10 ^ d).den = 1 ∧
      env.approve sell.address zeroExDeployedAddresses.erc20Proxy
        (amt * 10 ^ d) fa = .error e ∧
      performSwapAsync buy sell amt fa env =
        (baseReads sell.address fa ++
          [.decimalsRead sell.address,
           .approveTx sell.address zeroExDeployedAddresses.erc20Proxy
             (amt * 10 ^ d) fa],
         .error (.rejected e))) ∨
    (∃ d b al rc, env.decimals sell.address = .ok d ∧
      env.balanceOf sell.address fa = .ok b ∧
      ¬ decimalPlaces2 (toUnitAmount b d) < amt ∧
      env.allowance sell.address fa zeroExDeployedAddresses.erc20Proxy =
        .ok al ∧
      decimalPlaces2 (toUnitAmount al d) < amt ∧ (amt * 10 ^ d).den = 1 ∧
      env.approve sell.address zeroExDeployedAddresses.erc20Proxy
        (amt * 10 ^ d) fa = .ok rc ∧
      performSwapAsync buy sell amt fa env =
        performSwapSteps34 buy sell amt fa env
          (baseReads sell.address fa ++
            [.decimalsRead sell.address,
             .approveTx sell.address zeroExDeployedAddresses.erc20Proxy
               (amt * 10 ^ d) fa])) ∨
    (∃ d b al, env.decimals sell.address = .ok d ∧
      env.balanceOf sell.address fa = .ok b ∧
      ¬ decimalPlaces2 (toUnitAmount b d) < amt ∧
      env.allowance sell.address fa zeroExDeployedAddresses.erc20Proxy =
        .ok al ∧
      ¬ decimalPlaces2 (toUnitAmount al d) < amt ∧
      performSwapAsync buy sell amt fa env =
        performSwapSteps34 buy sell amt fa env
          (baseReads sell.address fa)) := by
  rcases hd : env.decimals sell.address with e | d
  · exact Or.inl ⟨e, rfl, by simp [performSwapAsync, hd]⟩
  rcases hb : env.balanceOf sell.address fa with e | b
  · exact Or.inr (Or.inl ⟨d, e, rfl, rfl, by simp [performSwapAsync, hd, hb]⟩)
  by_cases hblt : decimalPlaces2 (toUnitAmount b d) < amt
  · exact Or.inr (Or.inr (Or.inl ⟨d, b, rfl, rfl, hblt, by
      simp [performSwapAsync, hd, hb, hblt]⟩))
  rcases ha : env.allowance sell.address fa
      zeroExDeployedAddresses.erc20Proxy with e | al
  · refine Or.inr (Or.inr (Or.inr (Or.inl ⟨d, b, e, rfl, rfl, hblt, rfl, ?_⟩)))
    simp [performSwapAsync, hd, hb, hblt, ha, baseReads]
  by_cases halt : decimalPlaces2 (toUnitAmount al d) < amt
  · by_cases hden : (amt * 10 ^ d).den = 1
    · rcases hap : env.approve sell.address zeroExDeployedAddresses.erc20Proxy
          (amt * 10 ^ d) fa with e | rc
      · refine Or.inr (Or.inr (Or.inr (Or.inr (Or.inr (Or.inl
          ⟨d, b, al, e, rfl, rfl, hblt, rfl, halt, hden, hap, ?_⟩)))))
        simp [performSwapAsync, toBaseUnitAmount, hd, hb, hblt, ha, halt,
          hden, hap, baseReads]
      · refine Or.inr (Or.inr (Or.inr (Or.inr (Or.inr (Or.inr (Or.inl
          ⟨d, b, al, rc, rfl, rfl, hblt, rfl, halt, hden, hap, ?_⟩))))))
        simp [performSwapAsync, toBaseUnitAmount, hd, hb, hblt, ha, halt,
          hden, hap, baseReads]
    · refine Or.inr (Or.inr (Or.inr (Or.inr (Or.inl
        ⟨d, b, al, rfl, rfl, hblt, rfl, halt, hden, ?_⟩))))
      simp [performSwapAsync, toBaseUnitAmount, hd, hb, hblt, ha, halt,
        hden, baseReads]
  · refine Or.inr (Or.inr (Or.inr (Or.inr (Or.inr (Or.inr (Or.inr
      ⟨d, b, al, rfl, rfl, hblt, rfl, halt, ?_⟩))))))
    simp [performSwapAsync, hd, hb, hblt, ha, halt, baseReads]

/-- The run of `performSwapAsync` when every external call succeeds: the
three reads, then (exactly when the rounded unit allowance is below the
sell amount) a decimals re-read and the approval, then a decimals re-read,
the quote request, the submission and the receipt wait. -/
theorem performSwapAsync_ok_shape (buy sell : ERC20TokenContract) (amt : ℚ)
    (fa : String) (env : Env) (d b al : Nat) (q : GetSwapQuoteResponse)
    (txh : String) (rc rc2 : TxReceipt)
    (hd : env.decimals sell.address = .ok d)
    (hb : env.balanceOf sell.address fa = .ok b)
    (hblt : ¬ decimalPlaces2 (toUnitAmount b d) < amt)
    (ha : env.allowance sell.address fa zeroExDeployedAddresses.erc20Proxy =
      .ok al)
    (hden : (amt * 10 ^ d).den = 1)
    (hap : env.approve sell.address zeroExDeployedAddresses.erc20Proxy
      (amt * 10 ^ d) fa = .ok rc)
    (hq : env.quote quoteUrl (swapParams buy sell amt d fa) = .ok q)
    (hs : env.sendTransaction (submittedOf fa q) = .ok txh)
    (hw : env.awaitTransaction txh = .ok rc2) :
    performSwapAsync buy sell amt fa env =
      (baseReads sell.address fa ++
        (if decimalPlaces2 (toUnitAmount al d) < amt then
          [.decimalsRead sell.address,
           .approveTx sell.address zeroExDeployedAddresses.erc20Proxy
             (amt * 10 ^ d) fa]
         else []) ++
        [.decimalsRead sell.address,
         .httpGet quoteUrl (swapParams buy sell amt d fa),
         .sendTx (submittedOf fa q), .awaitTx txh],
       .ok ()) := by
  simp only [swapParams] at hq
  simp only [submittedOf] at hs
  by_cases halt : decimalPlaces2 (toUnitAmount al d) < amt
  · simp [performSwapAsync, performSwapSteps34,
      convertValueFromHumanToEthereum, toBaseUnitAmount, hd, hb, hblt, ha,
      halt, hden, hap, hq, hs, hw, baseReads, swapParams, submittedOf]
  · simp [performSwapAsync, performSwapSteps34,
      convertValueFromHumanToEthereum, toBaseUnitAmount, hd, hb, hblt, ha,
      halt, hden, hap, hq, hs, hw, baseReads, swapParams, submittedOf]

/-- Steps #3 and #4 never produce the explicitly thrown error: their only
failures are rejected calls or the library throw. -/
theorem performSwapSteps34_not_thrown (buy sell : ERC20TokenContract)
    (amt : ℚ) (fa : String) (env : Env) (t : List Event) (msg : String) :
    (performSwapSteps34 buy sell amt fa env t).2 ≠ .error (.thrown msg) := by
  rcases performSwapSteps34_cases buy sell amt fa env t with
    ⟨e, -, hrun⟩ | ⟨d, -, -, hrun⟩ | ⟨d, e, -, -, -, hrun⟩ |
    ⟨d, q, e, -, -, -, -, hrun⟩ | ⟨d, q, txh, e, -, -, -, -, -, hrun⟩ |
    ⟨d, q, txh, rc, -, -, -, -, -, hrun⟩ <;>
  rw [hrun] <;> simp

/-- If a run ends in the explicitly thrown error, then the message is
"Not Enough Balance", the insufficient-balance condition held, and the
trace is exactly the two reads followed by the alert. -/
theorem performSwapAsync_thrown_inversion (buy sell : ERC20TokenContract)
    (amt : ℚ) (fa : String) (env : Env) (msg : String)
    (h : (performSwapAsync buy sell amt fa env).2 = .error (.thrown msg)) :
    msg = "Not Enough Balance" ∧
    (∃ d b, env.decimals sell.address = .ok d ∧
      env.balanceOf sell.address fa = .ok b ∧
      decimalPlaces2 (toUnitAmount b d) < amt) ∧
    (performSwapAsync buy sell amt fa env).1 =
      [.decimalsRead sell.address, .balanceRead sell.address fa,
       .alert "Not Enough Balance"] := by
  rcases performSwapAsync_cases buy sell amt fa env with
    ⟨e, hd, hrun⟩ | ⟨d, e, hd, hb, hrun⟩ | ⟨d, b, hd, hb, hblt, hrun⟩ |
    ⟨d, b, e, hd, hb, hblt, ha, hrun⟩ |
    ⟨d, b, al, hd, hb, hblt, ha, halt, hden, hrun⟩ |
    ⟨d, b, al, e, hd, hb, hblt, ha, halt, hden, hap, hrun⟩ |
    ⟨d, b, al, rc, hd, hb, hblt, ha, halt, hden, hap, hrun⟩ |
    ⟨d, b, al, hd, hb, hblt, ha, halt, hrun⟩
  · rw [hrun] at h; simp at h
  · rw [hrun] at h; simp at h
  · rw [hrun] at h ⊢
    simp only [Prod.snd] at h
    have hmsg : msg = "Not Enough Balance" := by
      have := h
      simp at this
      exact this.symm
    exact ⟨hmsg, ⟨d, b, hd, hb, hblt⟩, rfl⟩
  · rw [hrun] at h; simp at h
  · rw [hrun] at h; simp at h
  · rw [hrun] at h; simp at h
  · rw [hrun] at h
    exact absurd h (performSwapSteps34_not_thrown buy sell amt fa env _ msg)
  · rw [hrun] at h
    exact absurd h (performSwapSteps34_not_thrown buy sell amt fa env _ msg)

/-- The concrete insufficient-balance run on `envPoor`. -/
theorem envPoor_run :
    performSwapAsync buyTok sellTok 5 "0xME" envPoor =
      ([.decimalsRead "0xSELL", .balanceRead "0xSELL" "0xME",
        .alert "Not Enough Balance"],
       .error (.thrown "Not Enough Balance")) := by
  have hblt : decimalPlaces2 (toUnitAmount 100 3) < 5 := by
    norm_num [decimalPlaces2, toUnitAmount]
  simp [performSwapAsync, envPoor, envApprove, sellTok, hblt]

/-- C1: when the sell-token balance of `fromAddress` is insufficient for
`amountToSellUnitAmount`, `performSwapAsync` first shows the user-facing
alert "Not Enough Balance" (the last trace event before it stops) and then
raises the generic error "Not Enough Balance"; and this is the only error
the function raises explicitly: every explicitly thrown message is
"Not Enough Balance". -/
theorem insufficientBalance_is_only_explicit_failure
    (buy sell : ERC20TokenContract) (amt : ℚ) (fa : String) (env : Env) :
    (∀ d b, env.decimals sell.address = .ok d →
      env.balanceOf sell.address fa = .ok b →
      decimalPlaces2 (toUnitAmount b d) < amt →
      performSwapAsync buy sell amt fa env =
        ([.decimalsRead sell.address, .balanceRead sell.address fa,
          .alert "Not Enough Balance"],
         .error (.thrown "Not Enough Balance"))) ∧
    (∀ msg,
      (performSwapAsync buy sell amt fa env).2 = .error (.thrown msg) →
      msg = "Not Enough Balance") := by
  constructor
  · intro d b hd hb hblt
    simp [performSwapAsync, hd, hb, hblt]
  · intro msg h
    exact (performSwapAsync_thrown_inversion buy sell amt fa env msg h).1

/-- Witness for C1: with 3 decimals, a balance of 100 base units (0.100
tokens) and a sell amount of 5, the run stops with the alert and the
thrown error. -/
theorem insufficientBalance_is_only_explicit_failure_witness :
    performSwapAsync buyTok sellTok 5 "0xME" envPoor =
      ([.decimalsRead sellTok.address, .balanceRead sellTok.address "0xME",
        .alert "Not Enough Balance"],
       .error (.thrown "Not Enough Balance")) :=
  (insufficientBalance_is_only_explicit_failure buyTok sellTok 5 "0xME"
    envPoor).1 3 100 rfl rfl (by norm_num [decimalPlaces2, toUnitAmount])

/-- C9: if `performSwapAsync` raises the "Not Enough Balance" error, then
no state-changing external call was made: the trace is exactly the
decimals read, the balance read and the alert — in particular it contains
no approval transaction, no HTTP quote request and no transaction
submission. -/
theorem thrownBalanceError_no_state_changing_calls
    (buy sell : ERC20TokenContract) (amt : ℚ) (fa : String) (env : Env)
    (h : (performSwapAsync buy sell amt fa env).2 =
      .error (.thrown "Not Enough Balance")) :
    (performSwapAsync buy sell amt fa env).1 =
      [.decimalsRead sell.address, .balanceRead sell.address fa,
       .alert "Not Enough Balance"] ∧
    (performSwapAsync buy sell amt fa env).1.filter isApproveTx = [] ∧
    (performSwapAsync buy sell amt fa env).1.filter isHttpGet = [] ∧
    (performSwapAsync buy sell amt fa env).1.filter isSendTx = [] := by
  obtain ⟨-, -, htr⟩ :=
    performSwapAsync_thrown_inversion buy sell amt fa env _ h
  rw [htr]
  refine ⟨rfl, ?_, ?_, ?_⟩ <;> simp [isApproveTx, isHttpGet, isSendTx]

/-- Witness for C9: the insufficient-balance run on `envPoor`. -/
theorem thrownBalanceError_no_state_changing_calls_witness :
    (performSwapAsync buyTok sellTok 5 "0xME" envPoor).1 =
      [.decimalsRead sellTok.address, .balanceRead sellTok.address "0xME",
       .alert "Not Enough Balance"] ∧
    (performSwapAsync buyTok sellTok 5 "0xME" envPoor).1.filter
      isApproveTx = [] ∧
    (performSwapAsync buyTok sellTok 5 "0xME" envPoor).1.filter
      isHttpGet = [] ∧
    (performSwapAsync buyTok sellTok 5 "0xME" envPoor).1.filter
      isSendTx = [] :=
  thrownBalanceError_no_state_changing_calls buyTok sellTok 5 "0xME" envPoor
    (by rw [envPoor_run])

/-- The concrete all-success run on `envApprove` (approval required). -/
theorem envApprove_run :
    performSwapAsync buyTok sellTok 5 "0xME" envApprove =
      ([.decimalsRead "0xSELL", .balanceRead "0xSELL" "0xME",
        .allowanceRead "0xSELL" "0xME" "0xKovanERC20Proxy",
        .decimalsRead "0xSELL",
        .approveTx "0xSELL" "0xKovanERC20Proxy" (5 * 10 ^ 3) "0xME",
        .decimalsRead "0xSELL",
        .httpGet quoteUrl
          { buyToken := "0xBUY", sellToken := "0xSELL",
            sellAmount := bigNumberToString (5 * 10 ^ 3),
            takerAddress := "0xME" },
        .sendTx { «from» := "0xME", «to» := "0xExchange",
                  data := "0xcalldata", gas := 210000, gasPrice := 1000,
                  value := 0 },
        .awaitTx "0xtxhash"],
       .ok ()) := by
  have hblt : ¬ decimalPlaces2 (toUnitAmount 5000 3) < 5 := by
    norm_num [decimalPlaces2, toUnitAmount]
  have halt : decimalPlaces2 (toUnitAmount 0 3) < 5 := by
    norm_num [decimalPlaces2, toUnitAmount]
  have hden : ((5 : ℚ) * 10 ^ 3).den = 1 := by norm_num
  simp [performSwapAsync, performSwapSteps34, convertValueFromHumanToEthereum,
    toBaseUnitAmount, envApprove, buyTok, sellTok, zeroExDeployedAddresses,
    hblt, halt, hden]

/-- The concrete run on `envAllow4999`: the true allowance (4.999 tokens)
is below the sell amount 5, yet no approval is issued and the run
succeeds. -/
theorem envAllow4999_run :
    performSwapAsync buyTok sellTok 5 "0xME" envAllow4999 =
      ([.decimalsRead "0xSELL", .balanceRead "0xSELL" "0xME",
        .allowanceRead "0xSELL" "0xME" "0xKovanERC20Proxy",
        .decimalsRead "0xSELL",
        .httpGet quoteUrl
          { buyToken := "0xBUY", sellToken := "0xSELL",
            sellAmount := bigNumberToString (5 * 10 ^ 3),
            takerAddress := "0xME" },
        .sendTx { «from» := "0xME", «to» := "0xExchange",
                  data := "0xcalldata", gas := 210000, gasPrice := 1000,
                  value := 0 },
        .awaitTx "0xtxhash"],
       .ok ()) := by
  have hblt : ¬ decimalPlaces2 (toUnitAmount 5000 3) < 5 := by
    norm_num [decimalPlaces2, toUnitAmount]
  have halt : ¬ decimalPlaces2 (toUnitAmount 4999 3) < 5 := by
    norm_num [decimalPlaces2, toUnitAmount]
  have hden : ((5 : ℚ) * 10 ^ 3).den = 1 := by norm_num
  simp [performSwapAsync, performSwapSteps34, convertValueFromHumanToEthereum,
    toBaseUnitAmount, envAllow4999, envApprove, buyTok, sellTok,
    zeroExDeployedAddresses, hblt, halt, hden]

/-- The concrete run on `envBal4999`: the true balance (4.999 tokens) is
below the sell amount 5, yet no balance error is raised and the run
succeeds. -/
theorem envBal4999_run :
    performSwapAsync buyTok sellTok 5 "0xME" envBal4999 =
      ([.decimalsRead "0xSELL", .balanceRead "0xSELL" "0xME",
        .allowanceRead "0xSELL" "0xME" "0xKovanERC20Proxy",
        .decimalsRead "0xSELL",
        .httpGet quoteUrl
          { buyToken := "0xBUY", sellToken := "0xSELL",
            sellAmount := bigNumberToString (5 * 10 ^ 3),
            takerAddress := "0xME" },
        .sendTx { «from» := "0xME", «to» := "0xExchange",
                  data := "0xcalldata", gas := 210000, gasPrice := 1000,
                  value := 0 },
        .awaitTx "0xtxhash"],
       .ok ()) := by
  have hblt : ¬ decimalPlaces2 (toUnitAmount 4999 3) < 5 := by
    norm_num [decimalPlaces2, toUnitAmount]
  have halt : ¬ decimalPlaces2 (toUnitAmount 1000000 3) < 5 := by
    norm_num [decimalPlaces2, toUnitAmount]
  have hden : ((5 : ℚ) * 10 ^ 3).den = 1 := by norm_num
  simp [performSwapAsync, performSwapSteps34, convertValueFromHumanToEthereum,
    toBaseUnitAmount, envBal4999, envApprove, buyTok, sellTok,
    zeroExDeployedAddresses, hblt, halt, hden]

/-- The concrete run on `envQuoteDown`: the quote endpoint rejects and the
rejection is propagated as the outcome. -/
theorem envQuoteDown_run :
    performSwapAsync buyTok sellTok 5 "0xME" envQuoteDown =
      ([.decimalsRead "0xSELL", .balanceRead "0xSELL" "0xME",
        .allowanceRead "0xSELL" "0xME" "0xKovanERC20Proxy",
        .decimalsRead "0xSELL",
        .approveTx "0xSELL" "0xKovanERC20Proxy" (5 * 10 ^ 3) "0xME",
        .decimalsRead "0xSELL",
        .httpGet quoteUrl
          { buyToken := "0xBUY", sellToken := "0xSELL",
            sellAmount := bigNumberToString (5 * 10 ^ 3),
            takerAddress := "0xME" }],
       .error (.rejected { code := 42 })) := by
  have hblt : ¬ decimalPlaces2 (toUnitAmount 5000 3) < 5 := by
    norm_num [decimalPlaces2, toUnitAmount]
  have halt : decimalPlaces2 (toUnitAmount 0 3) < 5 := by
    norm_num [decimalPlaces2, toUnitAmount]
  have hden : ((5 : ℚ) * 10 ^ 3).den = 1 := by norm_num
  simp [performSwapAsync, performSwapSteps34, convertValueFromHumanToEthereum,
    toBaseUnitAmount, envQuoteDown, envApprove, buyTok, sellTok,
    zeroExDeployedAddresses, hblt, halt, hden]

/-- C2 counterexample: in a successful run that needs an approval, the
external calls are NOT ordered by the spec's steps — a blockchain
decimals read (step 1) occurs after the approval transaction (step 2), so
a call of a later step precedes a call of an earlier step. -/
theorem stepOrder_counterexample :
    (performSwapAsync buyTok sellTok 5 "0xME" envApprove).2 = .ok () ∧
    nondecreasing
      (((performSwapAsync buyTok sellTok 5 "0xME" envApprove).1.filter
        isOutboundCall).map specStep) = false := by
  rw [envApprove_run]
  exact ⟨rfl, rfl⟩

/-- C2 (amended): in every all-success run the calls are issued in this
order: the three blockchain reads, then — exactly when the rounded unit
allowance is below the sell amount — a decimals re-read followed by the
approval transaction, then a decimals re-read, then exactly one outbound
HTTP request, then exactly one blockchain transaction submission followed
by its receipt wait. -/
theorem callOrder_amended (buy sell : ERC20TokenContract) (amt : ℚ)
    (fa : String) (env : Env) (d b al : Nat) (q : GetSwapQuoteResponse)
    (txh : String) (rc rc2 : TxReceipt)
    (hd : env.decimals sell.address = .ok d)
    (hb : env.balanceOf sell.address fa = .ok b)
    (hblt : ¬ decimalPlaces2 (toUnitAmount b d) < amt)
    (ha : env.allowance sell.address fa zeroExDeployedAddresses.erc20Proxy =
      .ok al)
    (hden : (amt * 10 ^ d).den = 1)
    (hap : env.approve sell.address zeroExDeployedAddresses.erc20Proxy
      (amt * 10 ^ d) fa = .ok rc)
    (hq : env.quote quoteUrl (swapParams buy sell amt d fa) = .ok q)
    (hs : env.sendTransaction (submittedOf fa q) = .ok txh)
    (hw : env.awaitTransaction txh = .ok rc2) :
    performSwapAsync buy sell amt fa env =
      (baseReads sell.address fa ++
        (if decimalPlaces2 (toUnitAmount al d) < amt then
          [.decimalsRead sell.address,
           .approveTx sell.address zeroExDeployedAddresses.erc20Proxy
             (amt * 10 ^ d) fa]
         else []) ++
        [.decimalsRead sell.address,
         .httpGet quoteUrl (swapParams buy sell amt d fa),
         .sendTx (submittedOf fa q), .awaitTx txh],
       .ok ()) ∧
    ((performSwapAsync buy sell amt fa env).1.filter isHttpGet).length = 1 ∧
    ((performSwapAsync buy sell amt fa env).1.filter isSendTx).length = 1 := by
  have h := performSwapAsync_ok_shape buy sell amt fa env d b al q txh rc rc2
    hd hb hblt ha hden hap hq hs hw
  refine ⟨h, ?_, ?_⟩ <;> rw [h] <;>
    by_cases halt : decimalPlaces2 (toUnitAmount al d) < amt <;>
    simp [halt, baseReads, isHttpGet, isSendTx]

/-- Witness for the amended C2 at the concrete all-success environment
`envApprove`. -/
theorem callOrder_amended_witness :
    (performSwapAsync buyTok sellTok 5 "0xME" envApprove =
      (baseReads sellTok.address "0xME" ++
        (if decimalPlaces2 (toUnitAmount 0 3) < 5 then
          [.decimalsRead sellTok.address,
           .approveTx sellTok.address zeroExDeployedAddresses.erc20Proxy
             (5 * 10 ^ 3) "0xME"]
         else []) ++
        [.decimalsRead sellTok.address,
         .httpGet quoteUrl (swapParams buyTok sellTok 5 3 "0xME"),
         .sendTx (submittedOf "0xME"
           { «to» := "0xExchange", data := "0xcalldata", gas := 210000,
             gasPrice := 1000, value := 0, orders := ["order1"] }),
         .awaitTx "0xtxhash"],
       .ok ())) ∧
    ((performSwapAsync buyTok sellTok 5 "0xME" envApprove).1.filter
      isHttpGet).length = 1 ∧
    ((performSwapAsync buyTok sellTok 5 "0xME" envApprove).1.filter
      isSendTx).length = 1 :=
  callOrder_amended buyTok sellTok 5 "0xME" envApprove 3 5000 0
    { «to» := "0xExchange", data := "0xcalldata", gas := 210000,
      gasPrice := 1000, value := 0, orders := ["order1"] }
    "0xtxhash" { transactionHash := "0xapproved" }
    { transactionHash := "0xtxhash" }
    rfl rfl (by norm_num [decimalPlaces2, toUnitAmount]) rfl
    (by norm_num) rfl rfl rfl rfl

/-- C7: `performSwapAsync` is deterministic: two runs with the same
arguments against environments that give identical responses to every
possible call issue the identical trace of calls (with identical
parameters) and produce the same outcome.  Sequencing is inherent: the
embedding issues each call and consumes its response before the next. -/
theorem performSwapAsync_deterministic (buy sell : ERC20TokenContract)
    (amt : ℚ) (fa : String) (env₁ env₂ : Env)
    (hdec : ∀ s, env₁.decimals s = env₂.decimals s)
    (hbal : ∀ s o, env₁.balanceOf s o = env₂.balanceOf s o)
    (hall : ∀ s o sp, env₁.allowance s o sp = env₂.allowance s o sp)
    (happ : ∀ s sp a o, env₁.approve s sp a o = env₂.approve s sp a o)
    (hquo : ∀ u p, env₁.quote u p = env₂.quote u p)
    (hsend : ∀ tx, env₁.sendTransaction tx = env₂.sendTransaction tx)
    (hwait : ∀ h, env₁.awaitTransaction h = env₂.awaitTransaction h) :
    performSwapAsync buy sell amt fa env₁ =
      performSwapAsync buy sell amt fa env₂ := by
  have henv : env₁ = env₂ := by
    cases env₁
    cases env₂
    simp only [Env.mk.injEq]
    exact ⟨funext hdec, funext fun s => funext (hbal s),
      funext fun s => funext fun o => funext (hall s o),
      funext fun s => funext fun sp => funext fun a => funext (happ s sp a),
      funext fun u => funext (hquo u), funext hsend, funext hwait⟩
  rw [henv]

/-- Witness for C7: `envApprove` and `envApproveTwin` are written
differently but respond identically, so the runs coincide. -/
theorem performSwapAsync_deterministic_witness :
    performSwapAsync buyTok sellTok 5 "0xME" envApprove =
      performSwapAsync buyTok sellTok 5 "0xME" envApproveTwin :=
  performSwapAsync_deterministic buyTok sellTok 5 "0xME" envApprove
    envApproveTwin (fun _ => rfl) (fun _ _ => rfl) (fun _ _ _ => rfl)
    (fun _ _ _ _ => rfl) (fun _ _ => rfl) (fun _ => rfl) (fun _ => rfl)

/-- C8: the insufficient-balance guard compares the balance converted to a
unit amount and rounded to 2 decimal places against the sell amount — the
error is raised iff that rounded value is below `amountToSellUnitAmount`.
Consequently a true balance of 4.999 tokens against a sell amount of 5
raises no error: that run proceeds and succeeds. -/
theorem balanceGuard_uses_rounded_value (buy sell : ERC20TokenContract)
    (amt : ℚ) (fa : String) (env : Env) (d b : Nat)
    (hd : env.decimals sell.address = .ok d)
    (hb : env.balanceOf sell.address fa = .ok b) :
    ((performSwapAsync buy sell amt fa env).2 =
        .error (.thrown "Not Enough Balance") ↔
      decimalPlaces2 (toUnitAmount b d) < amt) ∧
    (toUnitAmount 4999 3 < 5 ∧
      (performSwapAsync buyTok sellTok 5 "0xME" envBal4999).2 = .ok ()) := by
  refine ⟨⟨fun h => ?_, fun h => ?_⟩,
    by norm_num [toUnitAmount], by rw [envBal4999_run]⟩
  · obtain ⟨-, ⟨d', b', hd', hb', hlt⟩, -⟩ :=
      performSwapAsync_thrown_inversion buy sell amt fa env _ h
    rw [hd] at hd'
    rw [hb] at hb'
    cases hd'
    cases hb'
    exact hlt
  · simp [performSwapAsync, hd, hb, h]

/-- Witness for C8 at the concrete environment `envBal4999` (balance 4999
base units, 3 decimals, sell amount 5). -/
theorem balanceGuard_uses_rounded_value_witness :
    (((performSwapAsync buyTok sellTok 5 "0xME" envBal4999).2 =
        .error (.thrown "Not Enough Balance") ↔
      decimalPlaces2 (toUnitAmount 4999 3) < 5) ∧
    (toUnitAmount 4999 3 < 5 ∧
      (performSwapAsync buyTok sellTok 5 "0xME" envBal4999).2 = .ok ())) :=
  balanceGuard_uses_rounded_value buyTok sellTok 5 "0xME" envBal4999 3 4999
    rfl rfl

/-- C4 counterexample: with an existing allowance of 4999 base units at 3
decimals (4.999 tokens, strictly below the sell amount 5) the run issues
no approval transaction and succeeds: the approval is NOT issued exactly
when the existing allowance is below the sell amount. -/
theorem approvalGuard_counterexample :
    envAllow4999.allowance "0xSELL" "0xME" "0xKovanERC20Proxy" = .ok 4999 ∧
    toUnitAmount 4999 3 < 5 ∧
    (performSwapAsync buyTok sellTok 5 "0xME" envAllow4999).1.filter
      isApproveTx = [] ∧
    (performSwapAsync buyTok sellTok 5 "0xME" envAllow4999).2 = .ok () := by
  refine ⟨rfl, by norm_num [toUnitAmount], ?_, by rw [envAllow4999_run]⟩
  rw [envAllow4999_run]
  rfl

/-- C4 (amended): in every all-success run the blockchain calls include
the balance read, the allowance read and the submission of the generated
transaction, and an approval transaction is issued exactly when the
allowance converted to a unit amount and rounded to 2 decimal places is
below the sell amount (and skipped otherwise). -/
theorem approvalGuard_rounded (buy sell : ERC20TokenContract) (amt : ℚ)
    (fa : String) (env : Env) (d b al : Nat) (q : GetSwapQuoteResponse)
    (txh : String) (rc rc2 : TxReceipt)
    (hd : env.decimals sell.address = .ok d)
    (hb : env.balanceOf sell.address fa = .ok b)
    (hblt : ¬ decimalPlaces2 (toUnitAmount b d) < amt)
    (ha : env.allowance sell.address fa zeroExDeployedAddresses.erc20Proxy =
      .ok al)
    (hden : (amt * 10 ^ d).den = 1)
    (hap : env.approve sell.address zeroExDeployedAddresses.erc20Proxy
      (amt * 10 ^ d) fa = .ok rc)
    (hq : env.quote quoteUrl (swapParams buy sell amt d fa) = .ok q)
    (hs : env.sendTransaction (submittedOf fa q) = .ok txh)
    (hw : env.awaitTransaction txh = .ok rc2) :
    ((performSwapAsync buy sell amt fa env).1.filter isApproveTx ≠ [] ↔
      decimalPlaces2 (toUnitAmount al d) < amt) ∧
    Event.balanceRead sell.address fa ∈
      (performSwapAsync buy sell amt fa env).1 ∧
    Event.allowanceRead sell.address fa zeroExDeployedAddresses.erc20Proxy ∈
      (performSwapAsync buy sell amt fa env).1 ∧
    Event.sendTx (submittedOf fa q) ∈
      (performSwapAsync buy sell amt fa env).1 := by
  have h := performSwapAsync_ok_shape buy sell amt fa env d b al q txh rc rc2
    hd hb hblt ha hden hap hq hs hw
  rw [h]
  by_cases halt : decimalPlaces2 (toUnitAmount al d) < amt <;>
    simp [halt, baseReads, isApproveTx]

/-- Witness for the amended C4 at `envApprove` (allowance 0, approval
issued). -/
theorem approvalGuard_rounded_witness :
    (((performSwapAsync buyTok sellTok 5 "0xME" envApprove).1.filter
        isApproveTx ≠ [] ↔
      decimalPlaces2 (toUnitAmount 0 3) < 5) ∧
    Event.balanceRead sellTok.address "0xME" ∈
      (performSwapAsync buyTok sellTok 5 "0xME" envApprove).1 ∧
    Event.allowanceRead sellTok.address "0xME"
        zeroExDeployedAddresses.erc20Proxy ∈
      (performSwapAsync buyTok sellTok 5 "0xME" envApprove).1 ∧
    Event.sendTx (submittedOf "0xME"
        { «to» := "0xExchange", data := "0xcalldata", gas := 210000,
          gasPrice := 1000, value := 0, orders := ["order1"] }) ∈
      (performSwapAsync buyTok sellTok 5 "0xME" envApprove).1) :=
  approvalGuard_rounded buyTok sellTok 5 "0xME" envApprove 3 5000 0
    { «to» := "0xExchange", data := "0xcalldata", gas := 210000,
      gasPrice := 1000, value := 0, orders := ["order1"] }
    "0xtxhash" { transactionHash := "0xapproved" }
    { transactionHash := "0xtxhash" }
    rfl rfl (by norm_num [decimalPlaces2, toUnitAmount]) rfl
    (by norm_num) rfl rfl rfl rfl

/-- Trace inventory of steps #3 and #4: they only append events, never an
approval; any HTTP request they issue targets the quote endpoint with the
code's parameters; at most one HTTP request and (on success) exactly one
submission are issued; any submitted transaction is built from the quote
response and the from-address. -/
theorem performSwapSteps34_trace (buy sell : ERC20TokenContract) (amt : ℚ)
    (fa : String) (env : Env) (t : List Event) :
    ∃ r, (performSwapSteps34 buy sell amt fa env t).1 = t ++ r ∧
      r.filter isApproveTx = [] ∧
      (∀ url p, Event.httpGet url p ∈ r → url = quoteUrl ∧
        ∃ d, env.decimals sell.address = .ok d ∧
          p = swapParams buy sell amt d fa) ∧
      (r.filter isHttpGet).length ≤ 1 ∧
      (∀ tx, Event.sendTx tx ∈ r →
        ∃ d q, env.decimals sell.address = .ok d ∧
          env.quote quoteUrl (swapParams buy sell amt d fa) = .ok q ∧
          tx = submittedOf fa q) ∧
      ((performSwapSteps34 buy sell amt fa env t).2 = .ok () →
        (r.filter isSendTx).length = 1 ∧ (r.filter isHttpGet).length = 1) := by
  rcases performSwapSteps34_cases buy sell amt fa env t with
    ⟨e, hd, hrun⟩ | ⟨d, hd, hden, hrun⟩ | ⟨d, e, hd, hden, hq, hrun⟩ |
    ⟨d, q, e, hd, hden, hq, hs, hrun⟩ |
    ⟨d, q, txh, e, hd, hden, hq, hs, hw, hrun⟩ |
    ⟨d, q, txh, rc, hd, hden, hq, hs, hw, hrun⟩
  · refine ⟨[.decimalsRead sell.address], by rw [hrun], by simp [isApproveTx],
      fun url p hmem => by simp at hmem, by simp [isHttpGet],
      fun tx hmem => by simp at hmem,
      fun hok => by rw [hrun] at hok; simp at hok⟩
  · refine ⟨[.decimalsRead sell.address], by rw [hrun], by simp [isApproveTx],
      fun url p hmem => by simp at hmem, by simp [isHttpGet],
      fun tx hmem => by simp at hmem,
      fun hok => by rw [hrun] at hok; simp at hok⟩
  · refine ⟨[.decimalsRead sell.address,
      .httpGet quoteUrl (swapParams buy sell amt d fa)], by rw [hrun],
      by simp [isApproveTx], fun url p hmem => ?_, by simp [isHttpGet, isApproveTx],
      fun tx hmem => by simp at hmem,
      fun hok => by rw [hrun] at hok; simp at hok⟩
    simp at hmem
    exact ⟨hmem.1, d, hd, hmem.2⟩
  · refine ⟨[.decimalsRead sell.address,
      .httpGet quoteUrl (swapParams buy sell amt d fa),
      .sendTx (submittedOf fa q)], by rw [hrun],
      by simp [isApproveTx], fun url p hmem => ?_, by simp [isHttpGet, isApproveTx],
      fun tx hmem => ?_,
      fun hok => by rw [hrun] at hok; simp at hok⟩
    · simp at hmem
      exact ⟨hmem.1, d, hd, hmem.2⟩
    · simp at hmem
      exact ⟨d, q, hd, hq, hmem⟩
  · refine ⟨[.decimalsRead sell.address,
      .httpGet quoteUrl (swapParams buy sell amt d fa),
      .sendTx (submittedOf fa q), .awaitTx txh], by rw [hrun],
      by simp [isApproveTx], fun url p hmem => ?_, by simp [isHttpGet, isApproveTx],
      fun tx hmem => ?_,
      fun hok => by rw [hrun] at hok; simp at hok⟩
    · simp at hmem
      exact ⟨hmem.1, d, hd, hmem.2⟩
    · simp at hmem
      exact ⟨d, q, hd, hq, hmem⟩
  · refine ⟨[.decimalsRead sell.address,
      .httpGet quoteUrl (swapParams buy sell amt d fa),
      .sendTx (submittedOf fa q), .awaitTx txh], by rw [hrun],
      by simp [isApproveTx], fun url p hmem => ?_, by simp [isHttpGet, isApproveTx],
      fun tx hmem => ?_,
      fun hok => by simp [isSendTx, isHttpGet]⟩
    · simp at hmem
      exact ⟨hmem.1, d, hd, hmem.2⟩
    · simp at hmem
      exact ⟨d, q, hd, hq, hmem⟩

/-- C5: every transaction that `performSwapAsync` submits has its to, data,
gas, gasPrice and value fields taken unchanged from the deserialized HTTP
quote response and its from field equal to `fromAddress`; and a successful
run submits exactly one such transaction. -/
theorem submittedTransaction_from_quote (buy sell : ERC20TokenContract)
    (amt : ℚ) (fa : String) (env : Env) :
    (∀ tx, Event.sendTx tx ∈ (performSwapAsync buy sell amt fa env).1 →
      ∃ d q, env.decimals sell.address = .ok d ∧
        env.quote quoteUrl (swapParams buy sell amt d fa) = .ok q ∧
        tx = submittedOf fa q ∧ tx.«from» = fa ∧ tx.«to» = q.«to» ∧
        tx.data = q.data ∧ tx.gas = q.gas ∧ tx.gasPrice = q.gasPrice ∧
        tx.value = q.value) ∧
    ((performSwapAsync buy sell amt fa env).2 = .ok () →
      ((performSwapAsync buy sell amt fa env).1.filter isSendTx).length
        = 1) := by
  rcases performSwapAsync_cases buy sell amt fa env with
    ⟨e, hd, hrun⟩ | ⟨d, e, hd, hb, hrun⟩ | ⟨d, b, hd, hb, hblt, hrun⟩ |
    ⟨d, b, e, hd, hb, hblt, ha, hrun⟩ |
    ⟨d, b, al, hd, hb, hblt, ha, halt, hden, hrun⟩ |
    ⟨d, b, al, e, hd, hb, hblt, ha, halt, hden, hap, hrun⟩ |
    ⟨d, b, al, rc, hd, hb, hblt, ha, halt, hden, hap, hrun⟩ |
    ⟨d, b, al, hd, hb, hblt, ha, halt, hrun⟩
  · rw [hrun]
    exact ⟨fun tx hmem => by simp at hmem, fun hok => by simp at hok⟩
  · rw [hrun]
    exact ⟨fun tx hmem => by simp at hmem, fun hok => by simp at hok⟩
  · rw [hrun]
    exact ⟨fun tx hmem => by simp at hmem, fun hok => by simp at hok⟩
  · rw [hrun]
    exact ⟨fun tx hmem => by simp [baseReads] at hmem,
      fun hok => by simp at hok⟩
  · rw [hrun]
    exact ⟨fun tx hmem => by simp [baseReads] at hmem,
      fun hok => by simp at hok⟩
  · rw [hrun]
    exact ⟨fun tx hmem => by simp [baseReads] at hmem,
      fun hok => by simp at hok⟩
  · rw [hrun]
    obtain ⟨r, htr, -, -, -, hsend, hok⟩ :=
      performSwapSteps34_trace buy sell amt fa env
        (baseReads sell.address fa ++
          [.decimalsRead sell.address,
           .approveTx sell.address zeroExDeployedAddresses.erc20Proxy
             (amt * 10 ^ d) fa])
    rw [htr]
    refine ⟨fun tx hmem => ?_, fun hok2 => ?_⟩
    · rcases List.mem_append.mp hmem with hmem | hmem
      · simp [baseReads] at hmem
      · obtain ⟨d2, q, hd2, hq, htx⟩ := hsend tx hmem
        exact ⟨d2, q, hd2, hq, htx, by simp [htx, submittedOf],
          by simp [htx, submittedOf], by simp [htx, submittedOf],
          by simp [htx, submittedOf], by simp [htx, submittedOf],
          by simp [htx, submittedOf]⟩
    · have hc := (hok hok2).1
      simp only [List.filter_append, List.length_append]
      simp [baseReads, isSendTx, hc]
  · rw [hrun]
    obtain ⟨r, htr, -, -, -, hsend, hok⟩ :=
      performSwapSteps34_trace buy sell amt fa env (baseReads sell.address fa)
    rw [htr]
    refine ⟨fun tx hmem => ?_, fun hok2 => ?_⟩
    · rcases List.mem_append.mp hmem with hmem | hmem
      · simp [baseReads] at hmem
      · obtain ⟨d2, q, hd2, hq, htx⟩ := hsend tx hmem
        exact ⟨d2, q, hd2, hq, htx, by simp [htx, submittedOf],
          by simp [htx, submittedOf], by simp [htx, submittedOf],
          by simp [htx, submittedOf], by simp [htx, submittedOf],
          by simp [htx, submittedOf]⟩
    · have hc := (hok hok2).1
      simp only [List.filter_append, List.length_append]
      simp [baseReads, isSendTx, hc]

/-- C3: at most one outbound HTTP request is made, and every HTTP request
made is a GET to the swap-quote endpoint whose query parameters are
exactly: buyToken the buy wrapper's address, sellToken the sell wrapper's
address, sellAmount the sell amount converted to base units with the sell
token's decimals (as a decimal string), and takerAddress the
`fromAddress`. -/
theorem httpRequest_single_and_params (buy sell : ERC20TokenContract)
    (amt : ℚ) (fa : String) (env : Env) :
    ((performSwapAsync buy sell amt fa env).1.filter isHttpGet).length ≤ 1 ∧
    ∀ url p, Event.httpGet url p ∈ (performSwapAsync buy sell amt fa env).1 →
      url = quoteUrl ∧ ∃ d, env.decimals sell.address = .ok d ∧
        p.buyToken = buy.address ∧ p.sellToken = sell.address ∧
        p.sellAmount = bigNumberToString (amt * 10 ^ d) ∧
        p.takerAddress = fa := by
  rcases performSwapAsync_cases buy sell amt fa env with
    ⟨e, hd, hrun⟩ | ⟨d, e, hd, hb, hrun⟩ | ⟨d, b, hd, hb, hblt, hrun⟩ |
    ⟨d, b, e, hd, hb, hblt, ha, hrun⟩ |
    ⟨d, b, al, hd, hb, hblt, ha, halt, hden, hrun⟩ |
    ⟨d, b, al, e, hd, hb, hblt, ha, halt, hden, hap, hrun⟩ |
    ⟨d, b, al, rc, hd, hb, hblt, ha, halt, hden, hap, hrun⟩ |
    ⟨d, b, al, hd, hb, hblt, ha, halt, hrun⟩
  · rw [hrun]
    exact ⟨by simp [isHttpGet], fun url p hmem => by simp at hmem⟩
  · rw [hrun]
    exact ⟨by simp [isHttpGet], fun url p hmem => by simp at hmem⟩
  · rw [hrun]
    exact ⟨by simp [isHttpGet], fun url p hmem => by simp at hmem⟩
  · rw [hrun]
    exact ⟨by simp [isHttpGet, baseReads],
      fun url p hmem => by simp [baseReads] at hmem⟩
  · rw [hrun]
    exact ⟨by simp [isHttpGet, baseReads],
      fun url p hmem => by simp [baseReads] at hmem⟩
  · rw [hrun]
    exact ⟨by simp [isHttpGet, baseReads],
      fun url p hmem => by simp [baseReads] at hmem⟩
  · rw [hrun]
    obtain ⟨r, htr, -, hhttp, hlen, -, -⟩ :=
      performSwapSteps34_trace buy sell amt fa env
        (baseReads sell.address fa ++
          [.decimalsRead sell.address,
           .approveTx sell.address zeroExDeployedAddresses.erc20Proxy
             (amt * 10 ^ d) fa])
    rw [htr]
    refine ⟨?_, fun url p hmem => ?_⟩
    · simp only [List.filter_append, List.length_append]
      simpa [baseReads, isHttpGet] using hlen
    · rcases List.mem_append.mp hmem with hmem | hmem
      · simp [baseReads] at hmem
      · obtain ⟨hurl, d2, hd2, hp⟩ := hhttp url p hmem
        exact ⟨hurl, d2, hd2, by simp [hp, swapParams],
          by simp [hp, swapParams], by simp [hp, swapParams],
          by simp [hp, swapParams]⟩
  · rw [hrun]
    obtain ⟨r, htr, -, hhttp, hlen, -, -⟩ :=
      performSwapSteps34_trace buy sell amt fa env (baseReads sell.address fa)
    rw [htr]
    refine ⟨?_, fun url p hmem => ?_⟩
    · simp only [List.filter_append, List.length_append]
      simpa [baseReads, isHttpGet] using hlen
    · rcases List.mem_append.mp hmem with hmem | hmem
      · simp [baseReads] at hmem
      · obtain ⟨hurl, d2, hd2, hp⟩ := hhttp url p hmem
        exact ⟨hurl, d2, hd2, by simp [hp, swapParams],
          by simp [hp, swapParams], by simp [hp, swapParams],
          by simp [hp, swapParams]⟩

/-- Witness for C3: the quote request of the `envApprove` run carries the
code's parameters. -/
theorem httpRequest_single_and_params_witness :
    quoteUrl = quoteUrl ∧
    ∃ d, envApprove.decimals sellTok.address = .ok d ∧
      (swapParams buyTok sellTok 5 3 "0xME").buyToken = buyTok.address ∧
      (swapParams buyTok sellTok 5 3 "0xME").sellToken = sellTok.address ∧
      (swapParams buyTok sellTok 5 3 "0xME").sellAmount =
        bigNumberToString (5 * 10 ^ d) ∧
      (swapParams buyTok sellTok 5 3 "0xME").takerAddress = "0xME" :=
  (httpRequest_single_and_params buyTok sellTok 5 "0xME" envApprove).2
    quoteUrl (swapParams buyTok sellTok 5 3 "0xME")
    (by rw [envApprove_run]; simp [swapParams, buyTok, sellTok])

/-- C10: every approval transaction issued approves the 0x ERC20 proxy for
the configured chain as spender, is sent from `fromAddress` on the sell
token, and approves exactly `amountToSellUnitAmount * 10 ^ decimals` (the
sell amount in base units), not an unlimited allowance. -/
theorem approval_spender_and_amount (buy sell : ERC20TokenContract)
    (amt : ℚ) (fa : String) (env : Env) :
    ∀ tok sp a snd, Event.approveTx tok sp a snd ∈
        (performSwapAsync buy sell amt fa env).1 →
      sp = zeroExDeployedAddresses.erc20Proxy ∧ tok = sell.address ∧
      snd = fa ∧
      ∃ d, env.decimals sell.address = .ok d ∧ a = amt * 10 ^ d := by
  rcases performSwapAsync_cases buy sell amt fa env with
    ⟨e, hd, hrun⟩ | ⟨d, e, hd, hb, hrun⟩ | ⟨d, b, hd, hb, hblt, hrun⟩ |
    ⟨d, b, e, hd, hb, hblt, ha, hrun⟩ |
    ⟨d, b, al, hd, hb, hblt, ha, halt, hden, hrun⟩ |
    ⟨d, b, al, e, hd, hb, hblt, ha, halt, hden, hap, hrun⟩ |
    ⟨d, b, al, rc, hd, hb, hblt, ha, halt, hden, hap, hrun⟩ |
    ⟨d, b, al, hd, hb, hblt, ha, halt, hrun⟩ <;>
  intro tok sp a snd hmem <;> rw [hrun] at hmem
  · simp at hmem
  · simp at hmem
  · simp at hmem
  · simp [baseReads] at hmem
  · simp [baseReads] at hmem
  · simp [baseReads] at hmem
    exact ⟨hmem.2.1, hmem.1, hmem.2.2.2, d, hd, hmem.2.2.1⟩
  · obtain ⟨r, htr, hnoap, -, -, -, -⟩ :=
      performSwapSteps34_trace buy sell amt fa env
        (baseReads sell.address fa ++
          [.decimalsRead sell.address,
           .approveTx sell.address zeroExDeployedAddresses.erc20Proxy
             (amt * 10 ^ d) fa])
    rw [htr] at hmem
    rcases List.mem_append.mp hmem with hmem | hmem
    · simp [baseReads] at hmem
      exact ⟨hmem.2.1, hmem.1, hmem.2.2.2, d, hd, hmem.2.2.1⟩
    · have := List.filter_eq_nil_iff.mp hnoap _ hmem
      simp [isApproveTx] at this
  · obtain ⟨r, htr, hnoap, -, -, -, -⟩ :=
      performSwapSteps34_trace buy sell amt fa env (baseReads sell.address fa)
    rw [htr] at hmem
    rcases List.mem_append.mp hmem with hmem | hmem
    · simp [baseReads] at hmem
    · have := List.filter_eq_nil_iff.mp hnoap _ hmem
      simp [isApproveTx] at this

/-- Witness for C10: the approval issued in the `envApprove` run. -/
theorem approval_spender_and_amount_witness :
    "0xKovanERC20Proxy" = zeroExDeployedAddresses.erc20Proxy ∧
    "0xSELL" = sellTok.address ∧ "0xME" = "0xME" ∧
    ∃ d, envApprove.decimals sellTok.address = .ok d ∧
      (5 : ℚ) * 10 ^ 3 = 5 * 10 ^ d :=
  approval_spender_and_amount buyTok sellTok 5 "0xME" envApprove
    "0xSELL" "0xKovanERC20Proxy" (5 * 10 ^ 3) "0xME"
    (by rw [envApprove_run]; simp)

/-- C6: rejections of external calls propagate to the caller unhandled and
untransformed: every call before the last one issued succeeded, and
whenever the run's outcome is a rejection it carries exactly the error
with which the environment answered the last issued call. -/
theorem rejected_errors_propagate (buy sell : ERC20TokenContract) (amt : ℚ)
    (fa : String) (env : Env) :
    (∀ ev ∈ (performSwapAsync buy sell amt fa env).1.dropLast,
      envRejects env ev = none) ∧
    (∀ e, (performSwapAsync buy sell amt fa env).2 = .error (.rejected e) →
      ∃ ev, (performSwapAsync buy sell amt fa env).1.getLast? = some ev ∧
        envRejects env ev = some e) := by
  rcases performSwapAsync_cases buy sell amt fa env with
    ⟨e0, hd, hrun⟩ | ⟨d, e0, hd, hb, hrun⟩ | ⟨d, b, hd, hb, hblt, hrun⟩ |
    ⟨d, b, e0, hd, hb, hblt, ha, hrun⟩ |
    ⟨d, b, al, hd, hb, hblt, ha, halt, hden, hrun⟩ |
    ⟨d, b, al, e0, hd, hb, hblt, ha, halt, hden, hap, hrun⟩ |
    ⟨d, b, al, rc, hd, hb, hblt, ha, halt, hden, hap, hrun⟩ |
    ⟨d, b, al, hd, hb, hblt, ha, halt, hrun⟩
  · rw [hrun]
    refine ⟨by simp, fun e he => ?_⟩
    simp at he
    subst he
    exact ⟨.decimalsRead sell.address, by simp, by simp [envRejects, hd]⟩
  · rw [hrun]
    refine ⟨by simp [envRejects, hd], fun e he => ?_⟩
    simp at he
    subst he
    exact ⟨.balanceRead sell.address fa, by simp, by simp [envRejects, hb]⟩
  · rw [hrun]
    exact ⟨by simp [envRejects, hd, hb], fun e he => by simp at he⟩
  · rw [hrun]
    refine ⟨by simp [baseReads, envRejects, hd, hb], fun e he => ?_⟩
    simp at he
    subst he
    exact ⟨.allowanceRead sell.address fa zeroExDeployedAddresses.erc20Proxy,
      by simp [baseReads], by simp [envRejects, ha]⟩
  · rw [hrun]
    exact ⟨by simp [baseReads, envRejects, hd, hb, ha],
      fun e he => by simp at he⟩
  · rw [hrun]
    refine ⟨by simp [baseReads, envRejects, hd, hb, ha], fun e he => ?_⟩
    simp at he
    subst he
    exact ⟨.approveTx sell.address zeroExDeployedAddresses.erc20Proxy
        (amt * 10 ^ d) fa,
      by simp [baseReads], by simp [envRejects, hap]⟩
  · rw [hrun]
    rcases performSwapSteps34_cases buy sell amt fa env
        (baseReads sell.address fa ++
          [.decimalsRead sell.address,
           .approveTx sell.address zeroExDeployedAddresses.erc20Proxy
             (amt * 10 ^ d) fa]) with
      ⟨e1, hd2, hrun2⟩ | ⟨d2, hd2, hden2, hrun2⟩ |
      ⟨d2, e1, hd2, hden2, hq, hrun2⟩ |
      ⟨d2, q, e1, hd2, hden2, hq, hs, hrun2⟩ |
      ⟨d2, q, txh, e1, hd2, hden2, hq, hs, hw, hrun2⟩ |
      ⟨d2, q, txh, rc2, hd2, hden2, hq, hs, hw, hrun2⟩
    · rw [hd] at hd2
      simp at hd2
    · rw [hrun2]
      exact ⟨by simp [baseReads, envRejects, hd, hb, ha, hap],
        fun e he => by simp at he⟩
    · rw [hrun2]
      refine ⟨by simp [baseReads, envRejects, hd, hb, ha, hap],
        fun e he => ?_⟩
      simp at he
      subst he
      exact ⟨.httpGet quoteUrl (swapParams buy sell amt d2 fa),
        by simp [baseReads], by simp [envRejects, hq]⟩
    · rw [hrun2]
      refine ⟨by simp [baseReads, envRejects, hd, hb, ha, hap, hq],
        fun e he => ?_⟩
      simp at he
      subst he
      exact ⟨.sendTx (submittedOf fa q), by simp [baseReads],
        by simp [envRejects, hs]⟩
    · rw [hrun2]
      refine ⟨by simp [baseReads, envRejects, hd, hb, ha, hap, hq, hs],
        fun e he => ?_⟩
      simp at he
      subst he
      exact ⟨.awaitTx txh, by simp [baseReads], by simp [envRejects, hw]⟩
    · rw [hrun2]
      exact ⟨by simp [baseReads, envRejects, hd, hb, ha, hap, hq, hs],
        fun e he => by simp at he⟩
  · rw [hrun]
    rcases performSwapSteps34_cases buy sell amt fa env
        (baseReads sell.address fa) with
      ⟨e1, hd2, hrun2⟩ | ⟨d2, hd2, hden2, hrun2⟩ |
      ⟨d2, e1, hd2, hden2, hq, hrun2⟩ |
      ⟨d2, q, e1, hd2, hden2, hq, hs, hrun2⟩ |
      ⟨d2, q, txh, e1, hd2, hden2, hq, hs, hw, hrun2⟩ |
      ⟨d2, q, txh, rc2, hd2, hden2, hq, hs, hw, hrun2⟩
    · rw [hd] at hd2
      simp at hd2
    · rw [hrun2]
      exact ⟨by simp [baseReads, envRejects, hd, hb, ha],
        fun e he => by simp at he⟩
    · rw [hrun2]
      refine ⟨by simp [baseReads, envRejects, hd, hb, ha], fun e he => ?_⟩
      simp at he
      subst he
      exact ⟨.httpGet quoteUrl (swapParams buy sell amt d2 fa),
        by simp [baseReads], by simp [envRejects, hq]⟩
    · rw [hrun2]
      refine ⟨by simp [baseReads, envRejects, hd, hb, ha, hq],
        fun e he => ?_⟩
      simp at he
      subst he
      exact ⟨.sendTx (submittedOf fa q), by simp [baseReads],
        by simp [envRejects, hs]⟩
    · rw [hrun2]
      refine ⟨by simp [baseReads, envRejects, hd, hb, ha, hq, hs],
        fun e he => ?_⟩
      simp at he
      subst he
      exact ⟨.awaitTx txh, by simp [baseReads], by simp [envRejects, hw]⟩
    · rw [hrun2]
      exact ⟨by simp [baseReads, envRejects, hd, hb, ha, hq, hs],
        fun e he => by simp at he⟩

/-- Witness for C5: the successful `envApprove` run submits exactly one
transaction. -/
theorem submittedTransaction_from_quote_witness :
    ((performSwapAsync buyTok sellTok 5 "0xME" envApprove).1.filter
      isSendTx).length = 1 :=
  (submittedTransaction_from_quote buyTok sellTok 5 "0xME" envApprove).2
    (by rw [envApprove_run])

/-- Witness for C6: on `envQuoteDown` the quote rejection (code 42) is the
outcome, and it is the error of the last issued call. -/
theorem rejected_errors_propagate_witness :
    ∃ ev, (performSwapAsync buyTok sellTok 5 "0xME" envQuoteDown).1.getLast?
        = some ev ∧
      envRejects envQuoteDown ev = some { code := 42 } :=
  (rejected_errors_propagate buyTok sellTok 5 "0xME" envQuoteDown).2
    { code := 42 } (by rw [envQuoteDown_run])
